import Mathlib

/-!
Verification of the MeetBetter real-time transcription core.

This file shallowly embeds the transcription pipeline of the repository
(`src-tauri/src/lib.rs`, `src-tauri/src/deepgram.rs`, `src-tauri/src/groq.rs`,
`src-tauri/src/realtime.rs`) into Lean: the batch-fallback diff and retry loop,
the dual-source audio mixer, the Deepgram receiver's interim deduplication,
the WAV truncation for oversized uploads, and the float-to-PCM16 normalizers.
Machine integers are modelled as `Nat`/`Int` (with explicit wrapping where the
source wraps), floating-point samples as `ℚ`, byte buffers as `List Nat`, and
Rust `String` as Lean `String` (Rust `str::len` counts UTF-8 bytes, modelled by
`String.utf8ByteSize`; `starts_with`/slicing at a prefix's byte length agree
with character-level prefix/drop, which is how they are rendered here).
-/

namespace MeetBetter

/-! ## String primitives

Rust string operations are rendered structurally over the character list
`String.data`, so that every definition evaluates inside the kernel.  They
agree with the Rust originals on ASCII text (Rust's `trim`/`to_lowercase`
handle further Unicode classes that never occur in the embedded constants). -/

/-- Rust `str::len`: the number of UTF-8 bytes. -/
def rustLen (s : String) : Nat := s.data.foldl (fun n c => n + c.utf8Size) 0

/-- Rust `str::trim`: strip whitespace from both ends. -/
def rustTrim (s : String) : String :=
  ⟨((s.data.dropWhile Char.isWhitespace).reverse.dropWhile
      Char.isWhitespace).reverse⟩

/-- Rust `str::starts_with` for a string pattern. -/
def rustStartsWith (s pat : String) : Bool := pat.data.isPrefixOf s.data

/-- Drop the first `n` characters of a string (`full_text[i..]` at a char
and byte boundary `i`). -/
def strDrop (s : String) (n : Nat) : String := ⟨s.data.drop n⟩

/-! ## Batch fallback: incremental diff (`lib.rs`, `start_live_transcription`) -/

/-- The delta extraction of the batch fallback (`lib.rs:435-446`).
Rust compares byte lengths (`full_text.len() > last_full_text.len()`) and
slices `full_text[last_full_text.len()..]` at the prefix's byte length; under
the conjoined `starts_with`, slicing at the prefix's byte length is dropping
the prefix's characters, which is how it is written here. -/
def newTextOf (last_full_text full_text : String) : String :=
  if last_full_text = "" then
    full_text
  else if rustLen last_full_text < rustLen full_text ∧
      rustStartsWith full_text last_full_text then
    rustTrim (strDrop full_text last_full_text.data.length)
  else if full_text ≠ last_full_text then
    full_text
  else
    ""

/-- The delta computation as the spec's words describe it: a strict extension
yields the trimmed suffix past the previous text, a divergent text yields the
whole new text, an unchanged text yields the empty delta.  Stated for
comparison with `newTextOf`, which is the code's computation. -/
def specDelta (prev new : String) : String :=
  if rustLen prev < rustLen new ∧ rustStartsWith new prev then
    rustTrim (strDrop new prev.data.length)
  else if new ≠ prev then
    new
  else
    ""

/-! ## Batch fallback: retry loop state (`lib.rs:391-509`) -/

/-- `CHECK_INTERVAL_MS` in `lib.rs:394`. -/
def CHECK_INTERVAL_MS : Nat := 4000

/-- `MIN_AUDIO_BYTES` in `lib.rs:395`. -/
def MIN_AUDIO_BYTES : Nat := 48000

/-- The filler-word list `FILLER_WORDS` of `lib.rs:117-121`. -/
def FILLER_WORDS : List String :=
  [" um ", " uh ", " er ", " ah ", " like ", " you know ",
   " i mean ", " sort of ", " kind of ", " basically ",
   " actually ", " literally ", " right ", " okay so "]

/-- Rust `str::replace`: replace every non-overlapping occurrence of `pat`,
scanning left to right.  (The empty-pattern case never arises: every filler
word is non-empty.) -/
def replaceList (pat rep : List Char) : List Char → List Char
  | [] => []
  | c :: cs =>
    if h : pat ≠ [] ∧ pat.isPrefixOf (c :: cs) then
      rep ++ replaceList pat rep ((c :: cs).drop pat.length)
    else
      c :: replaceList pat rep cs
termination_by l => l.length
decreasing_by
  · simp only [List.length_drop, List.length_cons]
    have : 0 < pat.length := List.length_pos.mpr h.1
    omega
  · simp

/-- Rust `str::split_whitespace`: maximal whitespace-free runs, in order. -/
def splitWsAux : List Char → List Char → List (List Char)
  | [], acc => if acc = [] then [] else [acc.reverse]
  | c :: cs, acc =>
    if c.isWhitespace then
      if acc = [] then splitWsAux cs [] else acc.reverse :: splitWsAux cs []
    else
      splitWsAux cs (c :: acc)

/-- `clean_transcript` of `lib.rs:124-144`: lowercase, pad with spaces, delete
filler words, re-join the whitespace-separated words with single spaces,
capitalize the first character. -/
def cleanTranscript (text : String) : String :=
  let result := ' ' :: text.data.map Char.toLower ++ [' ']
  let result := FILLER_WORDS.foldl (fun acc f => replaceList f.data [' '] acc) result
  let cleaned := List.intercalate [' '] (splitWsAux result [])
  match cleaned with
  | [] => ""
  | c :: cs => String.mk (c.toUpper :: cs)

/-- The mutable state of the batch-fallback loop (`lib.rs:397-402`). -/
structure BatchState where
  last_transcribed_size : Nat
  last_full_text : String
  consecutive_errors : Nat
  retry_delay_ms : Nat
  deriving Repr, DecidableEq

/-- Initial batch-loop state (`lib.rs:397-402`). -/
def initBatchState : BatchState :=
  { last_transcribed_size := 0, last_full_text := "",
    consecutive_errors := 0, retry_delay_ms := 1000 }

/-- Backoff update of the Deepgram retry loop (`lib.rs:363`). -/
def deepgramNextDelay (d : Nat) : Nat := min (d * 2) 30000

/-- Backoff update of the batch-fallback error branch (`lib.rs:489-491`). -/
def batchNextDelay (d : Nat) : Nat :=
  if d < 30000 then min (d * 2) 30000 else d

/-- Everything one batch tick does that is visible outside the loop:
the successor state, the transcript segment appended (if any), the
`transcript-update` event emitted (if any), the backoff sleep performed on
error (if any), and whether the loop breaks after the tick. -/
structure BatchTickOut where
  state : BatchState
  appended : Option String
  emitted : Option String
  sleptMs : Option Nat
  halted : Bool
  deriving Repr, DecidableEq

/-- One timer tick of the batch-fallback loop (`lib.rs:410-501`), given the
current size of the recording file and the outcome the transcription request
would return.  `current_size - last_transcribed_size` is Rust
`saturating_sub`, which is `Nat` subtraction. -/
def batchTick (st : BatchState) (current_size : Nat)
    (result : Except String String) : BatchTickOut :=
  -- new_audio = current_size.saturating_sub(last_transcribed_size), inlined.
  if MIN_AUDIO_BYTES ≤ current_size - st.last_transcribed_size then
    match result with
    | .ok full_text =>
      let st := { st with consecutive_errors := 0, retry_delay_ms := 1000 }
      if full_text = "" then
        ⟨{ st with last_transcribed_size := current_size },
          none, none, none, false⟩
      else
        let new_text := newTextOf st.last_full_text full_text
        let st := { st with last_full_text := full_text, last_transcribed_size := current_size }
        if new_text ≠ "" ∧ 5 < rustLen new_text then
          ⟨st, some (cleanTranscript new_text), some new_text, none, false⟩
        else
          ⟨st, none, none, none, false⟩
    | .error _ =>
      let st := { st with consecutive_errors := st.consecutive_errors + 1 }
      let st := { st with retry_delay_ms := batchNextDelay st.retry_delay_ms }
      ⟨st, none, none, some st.retry_delay_ms, false⟩
  else
    ⟨st, none, none, none, false⟩

/-- Iterate `n` failing batch ticks from a state, at a fixed file size. -/
def batchErrTicks (size : Nat) (st : BatchState) : Nat → BatchTickOut
  | 0 => ⟨st, none, none, none, false⟩
  | n + 1 => batchTick (batchErrTicks size st n).state size (.error "e")

/-! ## Deepgram streaming retry loop (`lib.rs:338-367`) -/

/-- `MAX_RETRY_DELAY_MS` in `lib.rs:341`. -/
def MAX_RETRY_DELAY_MS : Nat := 30000

/-- `MAX_RETRIES` in `lib.rs:342`. -/
def MAX_RETRIES : Nat := 10

/-- Whether the retry loop runs another iteration or breaks. -/
inductive LoopCtl where
  | halt
  | again
  deriving Repr, DecidableEq

/-- The error arm of the Deepgram retry loop (`lib.rs:350-364`): bump the
failure count, break once it reaches `MAX_RETRIES`, otherwise sleep the
current delay and double it (capped). -/
def deepgramOnError (consecutive_failures retry_delay_ms : Nat) :
    LoopCtl × Nat × Nat :=
  let cf := consecutive_failures + 1
  if MAX_RETRIES ≤ cf then
    (.halt, cf, retry_delay_ms)
  else
    (.again, cf, deepgramNextDelay retry_delay_ms)

/-- The retry-delay value after `n` consecutive failures under a given
backoff update, starting from the initial 1000 ms. -/
def delayAfterFailures (next : Nat → Nat) : Nat → Nat
  | 0 => 1000
  | n + 1 => next (delayAfterFailures next n)

/-! ## Sample normalizer

Floating-point samples are modelled as exact rationals; what is verified is
the clamp/scale/cast structure of each capture path, not `f32` rounding. -/

/-- Truncation toward zero, the rounding used by Rust numeric casts. -/
def truncQ (x : ℚ) : Int := if 0 ≤ x then ⌊x⌋ else ⌈x⌉

/-- Rust `as i16` on a float: round toward zero and saturate at the i16
bounds (the rational model has no NaN). -/
def rustAsI16 (x : ℚ) : Int := max (-32768) (min 32767 (truncQ x))

/-- Rust `f32::clamp(lo, hi)`: `max(min(self, hi), lo)`. -/
def rustClamp (s lo hi : ℚ) : ℚ := max lo (min s hi)

/-- The mic F32 normalization of the Deepgram capture paths
(`deepgram.rs:206` and `deepgram.rs:320`): clamp to `[-1, 1]`, scale by
32767, cast to `i16`. -/
def deepgramMicSample (s : ℚ) : Int := rustAsI16 (rustClamp s (-1) 1 * 32767)

/-- The F32 normalization of the realtime (AssemblyAI) capture path
(`realtime.rs:135`): scale by 32767 and cast to `i16`, with no clamp. -/
def realtimeMicSample (s : ℚ) : Int := rustAsI16 (s * 32767)

/-- The normalizer as the spec's words describe it: clamp to `[-1, 1]`
before integer scaling, then truncate to an integer. -/
def specPcm16 (s : ℚ) : Int := truncQ (rustClamp s (-1) 1 * 32767)

/-- The system-audio F32 normalization (`deepgram.rs:229-236`): average the
stereo pair to mono, clamp, scale, cast. -/
def sysMonoSample (l r : ℚ) : Int :=
  rustAsI16 (rustClamp ((l + r) / 2) (-1) 1 * 32767)

/-! ## Dual-source mixer (`deepgram.rs:182-302`) -/

/-- `i16::to_le_bytes`: the two's-complement bit pattern, low byte first. -/
def i16ToLe (s : Int) : List Nat :=
  let u := (s % 65536).toNat
  [u % 256, u / 256]

/-- Decode a little-endian byte pair back to a signed 16-bit value. -/
def leToI16 (b0 b1 : Nat) : Int :=
  let u := b0 + 256 * b1
  if u < 32768 then (u : Int) else (u : Int) - 65536

/-- One iteration of the interleave loop (`deepgram.rs:289-297`): the mic
sample then the system sample at index `i`, each as two little-endian bytes;
`get(i).copied().unwrap_or(0)` is `getD i 0`. -/
def chunkBlock (mic sys : List Int) (i : Nat) : List Nat :=
  i16ToLe (mic.getD i 0) ++ i16ToLe (sys.getD i 0)

/-- The stereo interleave loop (`deepgram.rs:288-297`): for
`i in 0..samples_per_100ms`, append mic then system sample bytes. -/
def stereoChunk (samples_per_100ms : Nat) (mic sys : List Int) : List Nat :=
  (List.range samples_per_100ms).flatMap (chunkBlock mic sys)

/-- Result of one 50 ms wake-up of the stereo mixing loop. -/
structure StereoTickOut where
  emitted : Option (List Nat)
  micBuf : List Int
  sysBuf : List Int
  deriving Repr, DecidableEq

/-- One wake-up of the stereo mixing loop (`deepgram.rs:258-301`): skip the
tick when the mic buffer is short; otherwise drain `samples_per_100ms` mic
samples, drain the same count from the system buffer if it has them — else
synthesize that many zero samples without draining — and emit the
interleaved chunk. -/
def stereoTick (samples_per_100ms : Nat) (micBuf sysBuf : List Int) :
    StereoTickOut :=
  if samples_per_100ms ≤ micBuf.length then
    let mic_samples := micBuf.take samples_per_100ms
    let micBuf := micBuf.drop samples_per_100ms
    if samples_per_100ms ≤ sysBuf.length then
      ⟨some (stereoChunk samples_per_100ms mic_samples
          (sysBuf.take samples_per_100ms)),
        micBuf, sysBuf.drop samples_per_100ms⟩
    else
      ⟨some (stereoChunk samples_per_100ms mic_samples
          (List.replicate samples_per_100ms 0)),
        micBuf, sysBuf⟩
  else
    ⟨none, micBuf, sysBuf⟩

/-- Result of one mono-mode F32 capture callback. -/
structure MonoCallbackOut where
  buf : List Nat
  emitted : Option (List Nat)
  deriving Repr, DecidableEq

/-- The mono-mode F32 capture callback (`deepgram.rs:316-331`): normalize
the samples to little-endian PCM16 bytes, append them to the shared buffer,
and once the buffer holds at least `buffer_size_mono` bytes drain all of it
as one chunk. -/
def monoF32Callback (buffer_size_mono : Nat) (buf : List Nat)
    (data : List ℚ) : MonoCallbackOut :=
  let bytes := data.flatMap (fun s => i16ToLe (deepgramMicSample s))
  let buf := buf ++ bytes
  if buffer_size_mono ≤ buf.length then ⟨[], some buf⟩ else ⟨buf, none⟩

/-- Decode the other-source channel of an interleaved chunk: the 16-bit
samples at the odd interleave positions, i.e. bytes `4*i + 2, 4*i + 3`. -/
def chunkOtherSamples (n : Nat) (chunk : List Nat) : List Int :=
  (List.range n).map (fun i =>
    leToI16 (chunk.getD (4 * i + 2) 0) (chunk.getD (4 * i + 3) 0))

/-- A concrete capture-callback batch: three zero samples. -/
def c2data : List ℚ := [0, 0, 0]

/-! ## Streaming receiver: demux and interim dedup (`deepgram.rs:409-519`) -/

/-- `AudioSource` (`system_audio.rs`): which capture device a transcript
came from. -/
inductive AudioSource where
  | Microphone
  | SystemAudio
  deriving Repr, DecidableEq

/-- `TranscriptMessage` (`deepgram.rs:26-31`). -/
structure TranscriptMessage where
  text : String
  is_final : Bool
  speaker : Option Nat
  source : AudioSource
  deriving Repr, DecidableEq

/-- The two logical deduplication channels: `last_interim_text_ch0` and
`last_interim_text_ch1` in `deepgram.rs:411-412`. -/
inductive Chan where
  | ch0
  | ch1
  deriving Repr, DecidableEq

/-- The receiver task's mutable state (`deepgram.rs:411-412`). -/
structure RecvState where
  last_interim_text_ch0 : String
  last_interim_text_ch1 : String
  deriving Repr, DecidableEq

/-- Both last-interim strings start empty (`deepgram.rs:411-412`). -/
def initRecvState : RecvState := ⟨"", ""⟩

/-- Read a channel's last-interim text. -/
def lastInterim (st : RecvState) : Chan → String
  | .ch0 => st.last_interim_text_ch0
  | .ch1 => st.last_interim_text_ch1

/-- Write a channel's last-interim text. -/
def setInterim (st : RecvState) : Chan → String → RecvState
  | .ch0, t => { st with last_interim_text_ch0 := t }
  | .ch1, t => { st with last_interim_text_ch1 := t }

/-- One alternative of a Deepgram result (`deepgram.rs:39-44`);
`firstWordSpeaker` is `alt.words.first().and_then(|w| w.speaker)`. -/
structure Alternative where
  transcript : String
  firstWordSpeaker : Option Nat
  deriving Repr, DecidableEq

/-- A parsed `DeepgramResponse` (`deepgram.rs:14-22`); `channel` holds the
alternatives list. -/
structure DeepgramResponse where
  msg_type : Option String
  channel : Option (List Alternative)
  channel_index : Option (List Nat)
  is_final : Option Bool
  speech_final : Option Bool
  deriving Repr, DecidableEq

/-- Logical channel selection (`deepgram.rs:432-453`): in multichannel mode
the first entry of `channel_index` (defaulting to 0) picks the channel; in
mono/diarization mode speaker id 0 maps to channel 0. -/
def chanOf (has_system_audio : Bool) (r : DeepgramResponse)
    (alt : Alternative) : Chan :=
  if has_system_audio then
    if (r.channel_index.bind List.head?).getD 0 = 0 then .ch0 else .ch1
  else
    if alt.firstWordSpeaker = some 0 then .ch0 else .ch1

/-- Channel 0 is the microphone (`deepgram.rs:439-452`). -/
def sourceOfChan : Chan → AudioSource
  | .ch0 => .Microphone
  | .ch1 => .SystemAudio

/-- Processing of one parsed websocket message by the receiver task
(`deepgram.rs:417-495`): skip non-`Results` messages, absent channels,
empty alternative lists and empty trimmed transcripts; emit a final
(`is_final || speech_final`) unconditionally and clear that channel's
last-interim text; emit an interim only when its text differs from that
channel's last-interim text, recording it. -/
def processResponse (has_system_audio : Bool) (st : RecvState)
    (r : DeepgramResponse) : List TranscriptMessage × RecvState :=
  if r.msg_type ≠ some "Results" then ([], st)
  else
    match r.channel with
    | none => ([], st)
    | some alts =>
      match alts.head? with
      | none => ([], st)
      | some alt =>
        let t := rustTrim alt.transcript
        if t = "" then ([], st)
        else
          let chan := chanOf has_system_audio r alt
          let speaker := alt.firstWordSpeaker
          let is_final := r.is_final.getD false
          let speech_final := r.speech_final.getD false
          let source := sourceOfChan chan
          if is_final || speech_final then
            ([⟨t, true, speaker, source⟩], setInterim st chan "")
          else if t ≠ lastInterim st chan then
            ([⟨t, false, speaker, source⟩], setInterim st chan t)
          else
            ([], st)

/-- A Results message whose transcript is empty and whose finality flag is
set (Deepgram regularly produces these between utterances). -/
def c4emptyFinal : DeepgramResponse :=
  ⟨some "Results", some [⟨"", none⟩], some [0, 2], some true, some false⟩

/-- An interim Results message carrying the text "hello" from channel 0. -/
def c4interim : DeepgramResponse :=
  ⟨some "Results", some [⟨"hello", some 0⟩], some [0, 2], some false,
    some false⟩

/-! ## Oversized recording truncation (`groq.rs:164-236`) -/

/-- `MAX_WHISPER_FILE_SIZE` (`groq.rs:164`). -/
def MAX_WHISPER_FILE_SIZE : Nat := 15000000

/-- `WAV_HEADER_SIZE` (`groq.rs:167`). -/
def WAV_HEADER_SIZE : Nat := 44

/-- `u32::to_le_bytes`. -/
def u32ToLe (n : Nat) : List Nat :=
  [n % 256, n / 256 % 256, n / 65536 % 256, n / 16777216 % 256]

/-- `copy_from_slice` into a byte slice: overwrite `repl.length` bytes of
`l` starting at `pos`. -/
def writeAt (l : List Nat) (pos : Nat) (repl : List Nat) : List Nat :=
  l.take pos ++ repl ++ l.drop (pos + repl.length)

/-- `extract_recent_audio` (`groq.rs:171-211`) on the recording file's
bytes: keep the 44-byte header, read the most recent
`min(max_size - 44, file_size - 44)` audio bytes, rewrite header bytes 4..8
with `(44 + audio_to_read - 8) as u32` and bytes 40..44 with
`audio_to_read as u32`, both little-endian, and concatenate. -/
def extract_recent_audio (file : List Nat) (max_size : Nat) : List Nat :=
  let file_size := file.length
  let header := file.take WAV_HEADER_SIZE
  let total_audio_data := file_size - WAV_HEADER_SIZE
  let audio_to_read := min (max_size - WAV_HEADER_SIZE) total_audio_data
  let start_pos := file_size - audio_to_read
  let audio_data := (file.drop start_pos).take audio_to_read
  let new_file_size := (WAV_HEADER_SIZE + audio_to_read - 8) % 4294967296
  let header := writeAt header 4 (u32ToLe new_file_size)
  let data_size := audio_to_read % 4294967296
  let header := writeAt header 40 (u32ToLe data_size)
  header ++ audio_data

/-- The bytes `transcribe_audio` submits for a recording file
(`groq.rs:229-236`): the whole file when it fits, else the extracted
recent portion. -/
def submittedBytes (file : List Nat) : List Nat :=
  if file.length ≤ MAX_WHISPER_FILE_SIZE then file
  else extract_recent_audio file MAX_WHISPER_FILE_SIZE

/-- The oversized-file submission as the claim's words describe it: the
original 44-byte header with bytes 4..8 rewritten to (total length - 8)
little-endian and bytes 40..44 rewritten to the audio-data length
little-endian, followed by exactly the most recent
`min(ceiling - 44, file_size - 44)` bytes of the file. -/
def specSubmission (file : List Nat) : List Nat :=
  let n := min (MAX_WHISPER_FILE_SIZE - WAV_HEADER_SIZE)
    (file.length - WAV_HEADER_SIZE)
  let header := writeAt (writeAt (file.take WAV_HEADER_SIZE) 4
    (u32ToLe (WAV_HEADER_SIZE + n - 8))) 40 (u32ToLe n)
  header ++ file.drop (file.length - n)

/-! ## Helper lemmas -/

/-- The Deepgram backoff delay is capped by 30000 after any failure. -/
lemma deepgramDelay_le_cap (n : Nat) :
    delayAfterFailures deepgramNextDelay n ≤ 30000 := by
  cases n with
  | zero => norm_num [delayAfterFailures]
  | succ m =>
    simp only [delayAfterFailures, deepgramNextDelay]
    omega

/-- Below the cap, the batch and Deepgram backoff updates coincide. -/
lemma batchNextDelay_eq_deepgram (d : Nat) (h : d ≤ 30000) :
    batchNextDelay d = deepgramNextDelay d := by
  unfold batchNextDelay deepgramNextDelay
  split
  · rfl
  · omega

/-- A chunk-block is always 4 bytes: two little-endian 16-bit samples. -/
lemma chunkBlock_length (mic sys : List Int) (i : Nat) :
    (chunkBlock mic sys i).length = 4 := rfl

/-- Peeling the last iteration off the interleave loop. -/
lemma stereoChunk_succ (n : Nat) (mic sys : List Int) :
    stereoChunk (n + 1) mic sys =
      stereoChunk n mic sys ++ chunkBlock mic sys n := by
  unfold stereoChunk
  rw [List.range_succ, List.flatMap_append]
  simp

/-- The interleave loop writes 4 bytes per iteration. -/
lemma stereoChunk_length (n : Nat) (mic sys : List Int) :
    (stereoChunk n mic sys).length = 4 * n := by
  induction n with
  | zero => rfl
  | succ m ih =>
    rw [stereoChunk_succ, List.length_append, ih, chunkBlock_length]
    omega

/-- Byte `4*i + j` of an interleaved chunk is byte `j` of block `i`. -/
lemma stereoChunk_getD (n : Nat) (mic sys : List Int) (i j : Nat)
    (hi : i < n) (hj : j < 4) :
    (stereoChunk n mic sys).getD (4 * i + j) 0 =
      (chunkBlock mic sys i).getD j 0 := by
  induction n with
  | zero => omega
  | succ m ih =>
    rw [stereoChunk_succ]
    rcases Nat.lt_or_ge i m with h | h
    · rw [List.getD_append _ _ _ _ (by rw [stereoChunk_length]; omega)]
      exact ih h
    · have : i = m := by omega
      subst this
      rw [List.getD_append_right _ _ _ _ (by rw [stereoChunk_length]; omega)]
      congr 1
      rw [stereoChunk_length]
      omega

/-- When the system sample at `i` is zero, bytes 2 and 3 of block `i` are
zero. -/
lemma chunkBlock_getD_sys_zero (mic sys : List Int) (i : Nat)
    (hsys : sys.getD i 0 = 0) :
    (chunkBlock mic sys i).getD 2 0 = 0 ∧
    (chunkBlock mic sys i).getD 3 0 = 0 := by
  unfold chunkBlock
  rw [hsys]
  exact ⟨rfl, rfl⟩

/-- Interleaving against a synthesized all-zero system sequence yields a
chunk whose other-source channel decodes to all-zero samples. -/
lemma chunkOtherSamples_zero (n : Nat) (mic : List Int) :
    chunkOtherSamples n (stereoChunk n mic (List.replicate n 0)) =
      List.replicate n 0 := by
  unfold chunkOtherSamples
  refine List.eq_replicate_iff.mpr ⟨by simp, ?_⟩
  intro x hx
  rw [List.mem_map] at hx
  obtain ⟨i, hi, rfl⟩ := hx
  rw [List.mem_range] at hi
  have hz : (List.replicate n (0 : Int)).getD i 0 = 0 := by
    rw [List.getD_eq_getElem?_getD]
    simp only [List.getElem?_replicate]
    rw [if_pos hi]
    rfl
  have h2 := (chunkBlock_getD_sys_zero mic (List.replicate n 0) i hz).1
  have h3 := (chunkBlock_getD_sys_zero mic (List.replicate n 0) i hz).2
  rw [stereoChunk_getD n mic _ i 2 hi (by omega), h2]
  rw [stereoChunk_getD n mic _ i 3 hi (by omega), h3]
  rfl

/-- Each normalized F32 sample contributes exactly 2 bytes. -/
lemma flatMap_pcm_length (data : List ℚ) :
    (data.flatMap (fun s => i16ToLe (deepgramMicSample s))).length =
      2 * data.length := by
  induction data with
  | nil => rfl
  | cons x xs ih =>
    rw [List.flatMap_cons, List.length_append, ih,
      show (i16ToLe (deepgramMicSample x)).length = 2 from rfl,
      List.length_cons]
    omega

/-! ## C1: batch-fallback delta computation -/

/-- C1, counterexample to the claim as stated: with previous text `""` and
new text `"hi "`, the new text strictly extends the previous text (longer,
and has it as a prefix), yet the computed delta is the untrimmed `"hi "`,
not the trimmed suffix `"hi"`. -/
theorem c1_batch_delta_counterexample :
    (rustLen "" < rustLen "hi " ∧ rustStartsWith "hi " "") ∧
    newTextOf "" "hi " ≠ rustTrim (strDrop "hi " ("".data.length)) := by
  decide

/-- C1 (amended): when the previous full transcription is non-empty, the
batch delta is exactly as claimed — the trimmed suffix on a strict
extension, the whole new text on divergence, empty when unchanged
(`specDelta`); when the previous full transcription is empty, the delta is
the whole new text, untrimmed. -/
theorem c1_batch_delta :
    (∀ full_text, newTextOf "" full_text = full_text) ∧
    (∀ prev full_text, prev ≠ "" →
      newTextOf prev full_text = specDelta prev full_text) := by
  constructor
  · intro ft
    simp [newTextOf]
  · intro prev ft h
    simp only [newTextOf, specDelta, if_neg h]

/-- C1 witness: the claim's own example, previous `"The cat"`, new
`"The cat sat"`. -/
theorem c1_batch_delta_witness :
    newTextOf "The cat" "The cat sat" = specDelta "The cat" "The cat sat" :=
  c1_batch_delta.2 "The cat" "The cat sat" (by decide)

/-! ## C2: emitted chunk byte lengths -/

/-- C2, counterexample to the claim as stated: with `sample_rate = 40`
(`samples_per_100ms = 4`, `buffer_size_mono = 8`), two mono F32 callbacks
of three samples each emit a 12-byte chunk on the second callback — the
callback drains the whole buffer, so the mono chunk is not
`samples_per_100ms * 2 = 8` bytes. -/
theorem c2_chunk_length_counterexample :
    Option.map List.length
      ((monoF32Callback 8 (monoF32Callback 8 [] c2data).buf
        c2data).emitted) = some 12 ∧
    (12 : Nat) ≠ 40 / 10 * 2 := by
  have hlen : ∀ buf : List Nat,
      (buf ++ c2data.flatMap (fun s => i16ToLe (deepgramMicSample s))).length
        = buf.length + 6 := by
    intro buf
    rw [List.length_append, flatMap_pcm_length]
    rfl
  constructor
  · have h1 : monoF32Callback 8 [] c2data =
        ⟨[] ++ c2data.flatMap (fun s => i16ToLe (deepgramMicSample s)),
          none⟩ := by
      unfold monoF32Callback
      rw [if_neg (by rw [hlen]; decide)]
    rw [h1]
    unfold monoF32Callback
    rw [if_pos (by rw [hlen, hlen]; decide)]
    dsimp only [Option.map]
    rw [hlen, hlen]
    rfl
  · decide

/-- C2 (amended): every stereo chunk is exactly
`2 * samples_per_100ms * 2` bytes; a mono chunk is at least
`samples_per_100ms * 2` bytes — the mono callback drains its whole buffer,
so the emitted length is the buffer length at drain time, not exactly the
threshold. -/
theorem c2_chunk_length :
    (∀ samples_per_100ms mic sys,
      (stereoChunk samples_per_100ms mic sys).length =
        2 * samples_per_100ms * 2) ∧
    (∀ samples_per_100ms buf data chunk,
      (monoF32Callback (samples_per_100ms * 2) buf data).emitted =
        some chunk →
      samples_per_100ms * 2 ≤ chunk.length) := by
  constructor
  · intro spp mic sys
    rw [stereoChunk_length]
    ring
  · intro spp buf data chunk h
    unfold monoF32Callback at h
    by_cases hc : spp * 2 ≤
        (buf ++ data.flatMap (fun s => i16ToLe (deepgramMicSample s))).length
    · rw [if_pos hc] at h
      obtain rfl : _ = chunk := Option.some.inj h
      exact hc
    · rw [if_neg hc] at h
      simp at h

/-- C2 witness: a mono callback that drains a 2-byte buffer at threshold
`1 * 2` emits a chunk of at least 2 bytes. -/
theorem c2_chunk_length_witness :
    1 * 2 ≤ ([0, 0] : List Nat).length :=
  c2_chunk_length.2 1 [0, 0] [] [0, 0] (by decide)

/-! ## C3: silence padding of a lagging system-audio source -/

/-- C3: on a stereo tick where the mic buffer holds at least
`samples_per_100ms` samples but the system buffer holds fewer, a chunk is
emitted whose other channel (the odd interleave positions) decodes to
exactly `samples_per_100ms` zero samples; the mic buffer is drained by
exactly `samples_per_100ms` samples, and the system buffer is left alone —
the tick never waits for the lagging source. -/
theorem c3_silence_padding :
    ∀ samples_per_100ms micBuf sysBuf,
      samples_per_100ms ≤ micBuf.length →
      sysBuf.length < samples_per_100ms →
      (stereoTick samples_per_100ms micBuf sysBuf).emitted =
        some (stereoChunk samples_per_100ms (micBuf.take samples_per_100ms)
          (List.replicate samples_per_100ms 0)) ∧
      chunkOtherSamples samples_per_100ms
        (stereoChunk samples_per_100ms (micBuf.take samples_per_100ms)
          (List.replicate samples_per_100ms 0)) =
        List.replicate samples_per_100ms 0 ∧
      (stereoTick samples_per_100ms micBuf sysBuf).micBuf =
        micBuf.drop samples_per_100ms ∧
      (stereoTick samples_per_100ms micBuf sysBuf).sysBuf = sysBuf := by
  intro spp micBuf sysBuf hm hs
  have hts : stereoTick spp micBuf sysBuf =
      ⟨some (stereoChunk spp (micBuf.take spp) (List.replicate spp 0)),
        micBuf.drop spp, sysBuf⟩ := by
    unfold stereoTick
    rw [if_pos hm, if_neg (by omega)]
  rw [hts]
  exact ⟨rfl, chunkOtherSamples_zero spp _, rfl, rfl⟩

/-- C3 witness: `samples_per_100ms = 2`, mic buffer `[1, 2, 3]`, system
buffer `[5]`. -/
theorem c3_silence_padding_witness :
    (stereoTick 2 [1, 2, 3] [5]).emitted =
      some (stereoChunk 2 (([1, 2, 3] : List Int).take 2)
        (List.replicate 2 0)) ∧
    chunkOtherSamples 2 (stereoChunk 2 (([1, 2, 3] : List Int).take 2)
      (List.replicate 2 0)) = List.replicate 2 0 ∧
    (stereoTick 2 [1, 2, 3] [5]).micBuf = ([1, 2, 3] : List Int).drop 2 ∧
    (stereoTick 2 [1, 2, 3] [5]).sysBuf = [5] :=
  c3_silence_padding 2 [1, 2, 3] [5] (by decide) (by decide)

/-! ## C4: streaming receiver interim deduplication -/

/-- Writing then reading the same channel's last-interim text. -/
lemma lastInterim_setInterim_same (st : RecvState) (c : Chan) (t : String) :
    lastInterim (setInterim st c t) c = t := by
  cases c <;> rfl

/-- Writing one channel's last-interim text leaves the other channel's
untouched. -/
lemma lastInterim_setInterim_other (st : RecvState) (c c' : Chan)
    (t : String) (h : c' ≠ c) :
    lastInterim (setInterim st c t) c' = lastInterim st c' := by
  cases c <;> cases c' <;> first | rfl | exact absurd rfl h

/-- Unfolding of `processResponse` on a well-formed Results message with a
non-empty trimmed transcript. -/
lemma processResponse_eq (has_system_audio : Bool) (st : RecvState)
    (r : DeepgramResponse) (alts : List Alternative) (alt : Alternative)
    (h1 : r.msg_type = some "Results") (h2 : r.channel = some alts)
    (h3 : alts.head? = some alt) (h4 : rustTrim alt.transcript ≠ "") :
    processResponse has_system_audio st r =
      if (r.is_final.getD false || r.speech_final.getD false) then
        ([⟨rustTrim alt.transcript, true, alt.firstWordSpeaker,
            sourceOfChan (chanOf has_system_audio r alt)⟩],
          setInterim st (chanOf has_system_audio r alt) "")
      else if rustTrim alt.transcript ≠
          lastInterim st (chanOf has_system_audio r alt) then
        ([⟨rustTrim alt.transcript, false, alt.firstWordSpeaker,
            sourceOfChan (chanOf has_system_audio r alt)⟩],
          setInterim st (chanOf has_system_audio r alt)
            (rustTrim alt.transcript))
      else
        ([], st) := by
  unfold processResponse
  rw [if_neg (by simp [h1]), h2]
  dsimp only
  rw [h3]
  dsimp only
  rw [if_neg h4]

/-- C4, counterexample to the claim as stated: a final Results message
whose transcript is empty is skipped before the emit logic — no event is
emitted — so "a final result is always emitted" fails for empty-transcript
finals. -/
theorem c4_interim_dedup_counterexample :
    (c4emptyFinal.is_final.getD false ||
      c4emptyFinal.speech_final.getD false) = true ∧
    (processResponse true initRecvState c4emptyFinal).1 = [] := by
  decide

/-- C4 (amended): for Results messages with a non-empty trimmed
transcript: a final is always emitted and clears its channel's
last-interim state; an interim is emitted exactly when its text differs
from that channel's last interim text (so a repeat of the same interim
emits nothing, and two consecutive identical interims yield at most one
event, exactly one when the first is fresh); processing never touches the
other channel's deduplication state.  A final whose trimmed transcript is
empty is skipped without emitting. -/
theorem c4_interim_dedup :
    ∀ (has_system_audio : Bool) (st : RecvState) (r : DeepgramResponse)
      (alts : List Alternative) (alt : Alternative),
      r.msg_type = some "Results" →
      r.channel = some alts →
      alts.head? = some alt →
      rustTrim alt.transcript ≠ "" →
      (((r.is_final.getD false || r.speech_final.getD false) = true →
        (processResponse has_system_audio st r).1 =
          [⟨rustTrim alt.transcript, true, alt.firstWordSpeaker,
            sourceOfChan (chanOf has_system_audio r alt)⟩] ∧
        lastInterim (processResponse has_system_audio st r).2
          (chanOf has_system_audio r alt) = "") ∧
      ((r.is_final.getD false || r.speech_final.getD false) = false →
        (rustTrim alt.transcript ≠
            lastInterim st (chanOf has_system_audio r alt) →
          (processResponse has_system_audio st r).1 =
            [⟨rustTrim alt.transcript, false, alt.firstWordSpeaker,
              sourceOfChan (chanOf has_system_audio r alt)⟩] ∧
          lastInterim (processResponse has_system_audio st r).2
            (chanOf has_system_audio r alt) = rustTrim alt.transcript) ∧
        (rustTrim alt.transcript =
            lastInterim st (chanOf has_system_audio r alt) →
          processResponse has_system_audio st r = ([], st))) ∧
      ((r.is_final.getD false || r.speech_final.getD false) = false →
        (processResponse has_system_audio
          (processResponse has_system_audio st r).2 r).1 = []) ∧
      (∀ c, c ≠ chanOf has_system_audio r alt →
        lastInterim (processResponse has_system_audio st r).2 c =
          lastInterim st c)) := by
  intro hs st r alts alt h1 h2 h3 h4
  have pr := processResponse_eq hs st r alts alt h1 h2 h3 h4
  refine ⟨?_, ?_, ?_, ?_⟩
  · intro hf
    rw [pr, if_pos hf]
    exact ⟨rfl, lastInterim_setInterim_same st _ ""⟩
  · intro hf
    constructor
    · intro hne
      rw [pr, if_neg (by simp [hf]), if_pos hne]
      exact ⟨rfl, lastInterim_setInterim_same st _ _⟩
    · intro he
      rw [pr, if_neg (by simp [hf]), if_neg (fun h => h he)]
  · intro hf
    by_cases hne : rustTrim alt.transcript ≠
        lastInterim st (chanOf hs r alt)
    · have hst : (processResponse hs st r).2 =
          setInterim st (chanOf hs r alt) (rustTrim alt.transcript) := by
        rw [pr, if_neg (by simp [hf]), if_pos hne]
      rw [hst, processResponse_eq hs _ r alts alt h1 h2 h3 h4,
        if_neg (by simp [hf]),
        if_neg (fun h => h (lastInterim_setInterim_same st _ _).symm)]
    · push_neg at hne
      have hst : processResponse hs st r = ([], st) := by
        rw [pr, if_neg (by simp [hf]), if_neg (fun h => h hne)]
      rw [hst]
      rw [hst]
  · intro c hc
    rw [pr]
    by_cases hf : (r.is_final.getD false || r.speech_final.getD false)
        = true
    · rw [if_pos hf]
      exact lastInterim_setInterim_other st _ c "" hc
    · rw [if_neg hf]
      by_cases hne : rustTrim alt.transcript ≠
          lastInterim st (chanOf hs r alt)
      · rw [if_pos hne]
        exact lastInterim_setInterim_other st _ c _ hc
      · rw [if_neg hne]

/-- C4 witness: processing the interim "hello" twice from the initial
state emits nothing the second time. -/
theorem c4_interim_dedup_witness :
    (processResponse true
      (processResponse true initRecvState c4interim).2 c4interim).1 = [] :=
  (c4_interim_dedup true initRecvState c4interim [⟨"hello", some 0⟩]
    ⟨"hello", some 0⟩ (by decide) (by decide) (by decide)
    (by decide)).2.2.1 (by decide)

/-! ## C5: retry backoff delay sequence -/

/-- C5: the retry delay starts at 1000 ms and doubles on each consecutive
failure capped at 30000 ms; after 5 doublings it equals 30000 ms and stays
there for every further failure; the batch loop's guarded update yields the
same delay sequence, and a successful batch transcription resets the delay
to 1000 ms. -/
theorem c5_backoff :
    delayAfterFailures deepgramNextDelay 0 = 1000 ∧
    (∀ n, delayAfterFailures deepgramNextDelay (n + 1) =
      min (delayAfterFailures deepgramNextDelay n * 2) 30000) ∧
    delayAfterFailures deepgramNextDelay 5 = 30000 ∧
    (∀ n, 5 ≤ n → delayAfterFailures deepgramNextDelay n = 30000) ∧
    (∀ n, delayAfterFailures batchNextDelay n =
      delayAfterFailures deepgramNextDelay n) ∧
    (∀ st current_size full_text,
      MIN_AUDIO_BYTES ≤ current_size - st.last_transcribed_size →
      (batchTick st current_size (Except.ok full_text)).state.retry_delay_ms
        = 1000) := by
  refine ⟨rfl, fun n => rfl, by decide, ?_, ?_, ?_⟩
  · intro n hn
    obtain ⟨k, rfl⟩ := Nat.exists_eq_add_of_le hn
    clear hn
    induction k with
    | zero => decide
    | succ k ih =>
      have h1 : delayAfterFailures deepgramNextDelay (5 + (k + 1)) =
          deepgramNextDelay (delayAfterFailures deepgramNextDelay (5 + k)) :=
        rfl
      rw [h1, ih]
      decide
  · intro n
    induction n with
    | zero => rfl
    | succ n ih =>
      have h1 : delayAfterFailures batchNextDelay (n + 1) =
          batchNextDelay (delayAfterFailures batchNextDelay n) := rfl
      rw [h1, ih, batchNextDelay_eq_deepgram _ (deepgramDelay_le_cap n)]
      rfl
  · intro st cs ft h
    unfold batchTick
    rw [if_pos h]
    dsimp only
    split_ifs <;> rfl

/-- C5 witness: seven consecutive failures leave the delay at the 30000 ms
cap, and a successful batch tick resets it to 1000 ms. -/
theorem c5_backoff_witness :
    delayAfterFailures deepgramNextDelay 7 = 30000 ∧
    (batchTick initBatchState 48000 (Except.ok "hello")).state.retry_delay_ms
      = 1000 :=
  ⟨c5_backoff.2.2.2.1 7 (by decide),
   c5_backoff.2.2.2.2.2 initBatchState 48000 "hello" (by decide)⟩

/-! ## C6: bounded recovery -/

/-- C6, counterexample to the claim as stated: after 10 consecutive batch
transcription failures the batch loop has not stopped — its error branch
never breaks. -/
theorem c6_retry_bound_counterexample :
    (batchErrTicks 100000 initBatchState 10).state.consecutive_errors = 10 ∧
    (batchErrTicks 100000 initBatchState 10).halted = false := by
  decide

/-- C6 (amended): the streaming session's reconnect loop stops on the 10th
consecutive failure (and keeps retrying before that), but the batch
fallback's retry policy never stops retrying: no batch tick ever halts the
loop, whatever the outcome. -/
theorem c6_retry_bound :
    (∀ cf rd, 9 ≤ cf → (deepgramOnError cf rd).1 = LoopCtl.halt) ∧
    (∀ cf rd, cf < 9 → (deepgramOnError cf rd).1 = LoopCtl.again) ∧
    (∀ st current_size result,
      (batchTick st current_size result).halted = false) := by
  refine ⟨?_, ?_, ?_⟩
  · intro cf rd h
    unfold deepgramOnError
    rw [if_pos (by unfold MAX_RETRIES; omega)]
  · intro cf rd h
    unfold deepgramOnError
    rw [if_neg (by unfold MAX_RETRIES; omega)]
  · intro st cs r
    cases r with
    | ok ft =>
      unfold batchTick
      dsimp only
      split_ifs <;> rfl
    | error e =>
      unfold batchTick
      dsimp only
      split_ifs <;> rfl

/-- C6 witness: the 10th streaming failure halts, the 1st retries, and a
failing batch tick never halts. -/
theorem c6_retry_bound_witness :
    (deepgramOnError 9 30000).1 = LoopCtl.halt ∧
    (deepgramOnError 0 1000).1 = LoopCtl.again ∧
    (batchTick initBatchState 100000 (Except.error "boom")).halted = false :=
  ⟨c6_retry_bound.1 9 30000 (by decide),
   c6_retry_bound.2.1 0 1000 (by decide),
   c6_retry_bound.2.2 initBatchState 100000 (Except.error "boom")⟩

/-! ## C7: batch failure preserves the cursor -/

/-- C7: a failing batch transcription attempt leaves
`last_transcribed_size` and `last_full_text` exactly as they were, appends
no segment and emits no event, so the unseen bytes are re-submitted on a
later tick; both fields change only on a successful transcription. -/
theorem c7_batch_error_preserves_cursor :
    ∀ st current_size e,
      (batchTick st current_size (Except.error e)).state.last_transcribed_size
        = st.last_transcribed_size ∧
      (batchTick st current_size (Except.error e)).state.last_full_text
        = st.last_full_text ∧
      (batchTick st current_size (Except.error e)).appended = none ∧
      (batchTick st current_size (Except.error e)).emitted = none := by
  intro st cs e
  unfold batchTick
  dsimp only
  split_ifs <;> exact ⟨rfl, rfl, rfl, rfl⟩

/-! ## C8: oversized recording truncation -/

/-- Overwriting bytes inside a list preserves its length. -/
lemma writeAt_length (l : List Nat) (pos : Nat) (repl : List Nat)
    (h : pos + repl.length ≤ l.length) :
    (writeAt l pos repl).length = l.length := by
  unfold writeAt
  rw [List.length_append, List.length_append, List.length_take,
    List.length_drop]
  omega

/-- C8: for a recording file larger than the 15,000,000-byte upload
ceiling, the submitted bytes are the original 44-byte header with bytes
4..8 rewritten to (total length - 8) little-endian and bytes 40..44
rewritten to the audio-data length little-endian, followed by exactly the
most recent `min(ceiling - 44, file_size - 44)` bytes of the file
(`specSubmission`), and the submission is exactly the ceiling size. -/
theorem c8_oversized_upload :
    ∀ file : List Nat, MAX_WHISPER_FILE_SIZE < file.length →
      submittedBytes file = specSubmission file ∧
      (submittedBytes file).length = MAX_WHISPER_FILE_SIZE := by
  intro file h
  have hlen : MAX_WHISPER_FILE_SIZE < file.length := h
  rw [MAX_WHISPER_FILE_SIZE] at hlen
  have hmin : min (MAX_WHISPER_FILE_SIZE - WAV_HEADER_SIZE)
      (file.length - WAV_HEADER_SIZE) = 14999956 := by
    rw [MAX_WHISPER_FILE_SIZE, WAV_HEADER_SIZE]
    omega
  have hsub : submittedBytes file = specSubmission file := by
    unfold submittedBytes
    rw [if_neg (by omega)]
    unfold extract_recent_audio specSubmission
    dsimp only
    rw [hmin]
    have h1 : (WAV_HEADER_SIZE + 14999956 - 8) % 4294967296 =
        WAV_HEADER_SIZE + 14999956 - 8 := by
      rw [WAV_HEADER_SIZE]
    have h2 : (14999956 : Nat) % 4294967296 = 14999956 := by norm_num
    rw [h1, h2]
    have h3 : (file.drop (file.length - 14999956)).take 14999956 =
        file.drop (file.length - 14999956) := by
      apply List.take_of_length_le
      rw [List.length_drop]
      omega
    rw [h3]
  refine ⟨hsub, ?_⟩
  rw [hsub]
  unfold specSubmission
  dsimp only
  rw [hmin]
  rw [List.length_append, writeAt_length, writeAt_length, List.length_take,
    List.length_drop]
  · rw [MAX_WHISPER_FILE_SIZE, WAV_HEADER_SIZE]
    omega
  · rw [List.length_take]
    simp [u32ToLe, WAV_HEADER_SIZE]
    omega
  · rw [writeAt_length]
    · rw [List.length_take]
      simp [u32ToLe, WAV_HEADER_SIZE]
      omega
    · rw [List.length_take]
      simp [u32ToLe, WAV_HEADER_SIZE]
      omega

/-- C8 witness: a 15,000,001-byte all-zero file is truncated to exactly
the ceiling size with the claimed layout. -/
theorem c8_oversized_upload_witness :
    submittedBytes (List.replicate 15000001 0) =
      specSubmission (List.replicate 15000001 0) ∧
    (submittedBytes (List.replicate 15000001 0)).length =
      MAX_WHISPER_FILE_SIZE :=
  c8_oversized_upload (List.replicate 15000001 0)
    (by rw [List.length_replicate]; decide)

/-! ## C9: float sample normalization -/

/-- Truncation toward zero is monotone up to an integer bound. -/
lemma truncQ_le_of_le {x : ℚ} {n : Int} (h : x ≤ n) : truncQ x ≤ n := by
  unfold truncQ
  split
  · exact le_trans (Int.floor_le_floor h) (by rw [Int.floor_intCast])
  · exact Int.ceil_le.mpr h

/-- Truncation toward zero stays above a nonpositive integer bound. -/
lemma le_truncQ_of_le {x : ℚ} {n : Int} (hn : n ≤ 0) (h : (n : ℚ) ≤ x) :
    n ≤ truncQ x := by
  unfold truncQ
  split
  · exact le_trans hn (Int.floor_nonneg.mpr (by assumption))
  · exact le_trans (by rw [Int.ceil_intCast]) (Int.ceil_le_ceil h)

/-- Within `[-32767, 32767]` the saturating cast is plain truncation. -/
lemma rustAsI16_eq_truncQ {x : ℚ} (h1 : (-32767 : ℚ) ≤ x)
    (h2 : x ≤ 32767) : rustAsI16 x = truncQ x := by
  have hu : truncQ x ≤ 32767 := truncQ_le_of_le (by exact_mod_cast h2)
  have hl : (-32767 : Int) ≤ truncQ x := le_truncQ_of_le (by norm_num)
    (by exact_mod_cast h1)
  unfold rustAsI16
  omega

/-- The clamp output lies in `[-1, 1]`. -/
lemma rustClamp_mem (s : ℚ) :
    -1 ≤ rustClamp s (-1) 1 ∧ rustClamp s (-1) 1 ≤ 1 :=
  ⟨le_max_left _ _, max_le (by norm_num) (min_le_right _ _)⟩

/-- Clamp-then-scale-then-cast equals the spec's clamp-then-truncate: the
clamped product stays within the i16 range, so the cast never saturates. -/
lemma clamped_cast_eq_spec (s : ℚ) :
    rustAsI16 (rustClamp s (-1) 1 * 32767) = specPcm16 s := by
  unfold specPcm16
  apply rustAsI16_eq_truncQ
  · nlinarith [(rustClamp_mem s).1]
  · nlinarith [(rustClamp_mem s).2]

/-- The realtime path (scale then saturating cast, no clamp) agrees with
the spec's value exactly when the scaled sample exceeds -32768; at or
below that it saturates to -32768. -/
lemma realtime_cases (s : ℚ) :
    realtimeMicSample s =
      if -32768 < s * 32767 then specPcm16 s else -32768 := by
  unfold realtimeMicSample
  split
  · rename_i hgt
    rcases le_or_lt s (-1) with hs1 | hs1
    · have hc : rustClamp s (-1) 1 = -1 := by
        unfold rustClamp
        rw [min_eq_left (by linarith), max_eq_left hs1]
      have hspec : specPcm16 s = -32767 := by
        unfold specPcm16
        rw [hc]
        rw [show ((-1 : ℚ) * 32767) = ((-32767 : Int) : ℚ) by norm_num]
        unfold truncQ
        rw [if_neg (by norm_num), Int.ceil_intCast]
      rw [hspec]
      have hx1 : s * 32767 ≤ -32767 := by nlinarith
      have hceil : truncQ (s * 32767) = ⌈s * 32767⌉ := by
        unfold truncQ
        rw [if_neg (by nlinarith)]
      have hcl : ⌈s * 32767⌉ ≤ -32767 :=
        Int.ceil_le.mpr (by exact_mod_cast hx1)
      have hcg : (-32768 : Int) < ⌈s * 32767⌉ := by
        rw [Int.lt_ceil]
        exact_mod_cast hgt
      unfold rustAsI16
      omega
    · rcases le_or_lt s 1 with hs2 | hs2
      · have hc : rustClamp s (-1) 1 = s := by
          unfold rustClamp
          rw [min_eq_left hs2, max_eq_right (by linarith)]
        rw [show specPcm16 s = truncQ (rustClamp s (-1) 1 * 32767) from rfl,
          hc]
        apply rustAsI16_eq_truncQ
        · nlinarith
        · nlinarith
      · have hc : rustClamp s (-1) 1 = 1 := by
          unfold rustClamp
          rw [min_eq_right (by linarith), max_eq_right (by norm_num)]
        have hspec : specPcm16 s = 32767 := by
          unfold specPcm16
          rw [hc]
          rw [show ((1 : ℚ) * 32767) = ((32767 : Int) : ℚ) by norm_num]
          unfold truncQ
          rw [if_pos (by norm_num), Int.floor_intCast]
        rw [hspec]
        have hx1 : (32767 : ℚ) ≤ s * 32767 := by nlinarith
        have hfl : (32767 : Int) ≤ truncQ (s * 32767) := by
          unfold truncQ
          rw [if_pos (by linarith)]
          exact Int.le_floor.mpr (by exact_mod_cast hx1)
        unfold rustAsI16
        omega
  · rename_i hle
    push_neg at hle
    have hceil : truncQ (s * 32767) = ⌈s * 32767⌉ := by
      unfold truncQ
      rw [if_neg (by nlinarith)]
    have hcl : ⌈s * 32767⌉ ≤ -32768 :=
      Int.ceil_le.mpr (by exact_mod_cast hle)
    unfold rustAsI16
    omega

/-- C9, counterexample to the claim as stated: the realtime F32 path has
no clamp, so at input -2 it emits -32768 while a clamp-before-scaling
normalizer emits -32767. -/
theorem c9_clamp_normalization_counterexample :
    realtimeMicSample (-2) = -32768 ∧ specPcm16 (-2) = -32767 ∧
    realtimeMicSample (-2) ≠ specPcm16 (-2) := by
  have h1 : realtimeMicSample (-2) = -32768 := by
    rw [realtime_cases]
    rw [if_neg (by norm_num)]
  have h2 : specPcm16 (-2) = -32767 := by
    unfold specPcm16 rustClamp
    rw [min_eq_left (by norm_num), max_eq_left (by norm_num)]
    rw [show ((-1 : ℚ) * 32767) = ((-32767 : Int) : ℚ) by norm_num]
    unfold truncQ
    rw [if_neg (by norm_num), Int.ceil_intCast]
  exact ⟨h1, h2, by rw [h1, h2]; decide⟩

/-- C9 (amended): both Deepgram capture paths (mic, and the averaged
system-audio pair) clamp to `[-1, 1]` before integer scaling and emit
exactly the claimed truncated value; the realtime (AssemblyAI) F32 path
omits the clamp — it matches the claimed value whenever the scaled sample
exceeds -32768, and saturates to -32768 (not -32767) for inputs at or
below -32768/32767. -/
theorem c9_clamp_normalization :
    (∀ s : ℚ, deepgramMicSample s = specPcm16 s) ∧
    (∀ l r : ℚ, sysMonoSample l r = specPcm16 ((l + r) / 2)) ∧
    (∀ s : ℚ, realtimeMicSample s =
      if -32768 < s * 32767 then specPcm16 s else -32768) :=
  ⟨fun s => clamped_cast_eq_spec s, fun l r => clamped_cast_eq_spec _,
   realtime_cases⟩

/-! ## C10: short deltas are dropped but the cursor advances -/

/-- C10: on a successful batch tick whose computed delta is non-empty but
at most 5 bytes long (Rust `len()` counts bytes), no segment is appended
and no event is emitted, yet `last_full_text` and `last_transcribed_size`
are still advanced to the new values — the short utterance is permanently
dropped rather than retried. -/
theorem c10_short_delta_dropped :
    ∀ st current_size full_text,
      MIN_AUDIO_BYTES ≤ current_size - st.last_transcribed_size →
      full_text ≠ "" →
      newTextOf st.last_full_text full_text ≠ "" →
      rustLen (newTextOf st.last_full_text full_text) ≤ 5 →
      (batchTick st current_size (Except.ok full_text)).appended = none ∧
      (batchTick st current_size (Except.ok full_text)).emitted = none ∧
      (batchTick st current_size (Except.ok full_text)).state.last_full_text
        = full_text ∧
      (batchTick st current_size
        (Except.ok full_text)).state.last_transcribed_size = current_size := by
  intro st cs ft h1 h2 h3 h4
  have hcond : ¬(newTextOf st.last_full_text ft ≠ "" ∧
      5 < rustLen (newTextOf st.last_full_text ft)) := by
    rintro ⟨-, hb⟩
    omega
  unfold batchTick
  rw [if_pos h1]
  dsimp only
  rw [if_neg h2, if_neg hcond]
  exact ⟨rfl, rfl, rfl, rfl⟩

/-- C10 witness: previous text `"The cat"`, new text `"The cat hi"`: the
delta `"hi"` is 2 bytes, so nothing is appended or emitted while the cursor
advances. -/
theorem c10_short_delta_dropped_witness :
    (batchTick ⟨0, "The cat", 0, 1000⟩ 48000
      (Except.ok "The cat hi")).appended = none ∧
    (batchTick ⟨0, "The cat", 0, 1000⟩ 48000
      (Except.ok "The cat hi")).emitted = none ∧
    (batchTick ⟨0, "The cat", 0, 1000⟩ 48000
      (Except.ok "The cat hi")).state.last_full_text = "The cat hi" ∧
    (batchTick ⟨0, "The cat", 0, 1000⟩ 48000
      (Except.ok "The cat hi")).state.last_transcribed_size = 48000 :=
  c10_short_delta_dropped ⟨0, "The cat", 0, 1000⟩ 48000 "The cat hi"
    (by decide) (by decide) (by decide) (by decide)

end MeetBetter
